import Mathlib

/-!
Shallow embedding of the reception-queue-system core
(src/source/reception_queue_system/control_queue.py and display_board.py).

Conventions of the embedding:
* Python strings are Lean `String`; Japanese status literals are kept verbatim
  ("受付済み" = RECEIVED, "仕掛中" = IN_PROGRESS, "完了" = DONE).
* Python `ValueError`s raised by the control tool are classified into the
  error taxonomy of the three distinct messages raised in the code
  (duplicate id / not found / status mismatch).
* The queue file is modelled as `Option JVal` (`none` = file missing or
  `json.JSONDecodeError`, both of which make `load_queue` proceed with an
  empty dict); a `JVal` models a parsed JSON value (integers only — the
  modelled program never writes nor relies on fractional numbers).
* `datetime.now()` is an explicit `now : String` argument threaded into the
  operations that stamp timestamps.
* Mutation of the in-memory `queue_payload` dict is explicit state passing:
  each control operation is `Snapshot → Except QErr (Order × Snapshot)`, with
  `.error` meaning the Python function raised before reaching `save_queue`.
-/

namespace RQS

/-- Error taxonomy of the control tool, one constructor per distinct
`ValueError` message raised in control_queue.py. -/
inductive QErr where
  | duplicateId
  | notFound
  | invalidState
deriving Repr, DecidableEq

/-- One order dict as created and mutated by control_queue.py:
`{"id", "status", "queued_at"}` at registration, with `updated_at` /
`completed_at` added by `update_status`.  Absent keys are `none`. -/
structure Order where
  id : String
  status : String
  queued_at : Option String := none
  updated_at : Option String := none
  completed_at : Option String := none
deriving Repr, DecidableEq

/-- The in-memory queue payload `{"orders": [...], "count": n}`. -/
structure Snapshot where
  orders : List Order
  count : Int
deriving Repr, DecidableEq

/-- Python truthiness of an `Optional[str]`: `None` and `""` are falsy. -/
def strOptTruthy : Option String → Bool
  | none => false
  | some s => !(s == "")

/-- The ten decimal digit characters, low to high (codepoints 48–57). -/
def decDigits : List Char := (List.range 10).map (fun d => Char.ofNat (48 + d))

/-- Decimal digit character of a value below ten, as produced by Python
str formatting. -/
def digitChar (d : Nat) : Char := decDigits.getD d '*'

/-- Big-endian decimal digit list, structurally recursive on a fuel bound
(any fuel above the value itself is enough, since the value shrinks
tenfold each step). -/
def natDigitsAux : Nat → Nat → List Char
  | 0, _ => []
  | fuel + 1, n =>
    if n < 10 then [digitChar n]
    else natDigitsAux fuel (n / 10) ++ [digitChar (n % 10)]

/-- Big-endian decimal digit list of a natural number (model of Python
decimal rendering of a non-negative int). -/
def natDigits (n : Nat) : List Char := natDigitsAux (n + 1) n

/-- Numeric value of a digit character. -/
def digitVal (c : Char) : Nat := c.toNat - 48

/-- Value of a big-endian digit list continuing from accumulator `a`
(the fold Python performs when parsing an all-digit string). -/
def valFrom (a : Nat) (l : List Char) : Nat :=
  l.foldl (fun acc c => acc * 10 + digitVal c) a

/-- Numeric value of a big-endian digit list. -/
def valDigits (l : List Char) : Nat := valFrom 0 l

/-- Left-pad a digit list with zeros to the given width
(`f"{n:03d}"` padding step). -/
def padZeros (width : Nat) (l : List Char) : List Char :=
  List.replicate (width - l.length) '0' ++ l

/-- Model of Python `f"{n:03d}"`: pad to total width 3, the sign included
(`-5` renders as `"-05"`). -/
def formatI03 (n : Int) : String :=
  if n < 0 then String.mk ('-' :: padZeros 2 (natDigits n.natAbs))
  else String.mk (padZeros 3 (natDigits n.natAbs))

/-- Strip leading and trailing whitespace (model of Python `str.strip()`). -/
def trimChars (l : List Char) : List Char :=
  ((l.dropWhile Char.isWhitespace).reverse.dropWhile Char.isWhitespace).reverse

/-- Parse a nonempty all-digit character list, else `none`. -/
def parseDigitsChars (l : List Char) : Option Nat :=
  if !l.isEmpty && l.all Char.isDigit then some (valDigits l) else none

/-- Sign handling of Python `int(s)` after stripping: an optional single
leading sign followed by a nonempty run of decimal digits. -/
def parseSigned : List Char → Option Int
  | [] => none
  | c :: rest =>
    if c == '-' then (parseDigitsChars rest).map (fun n => -(Int.ofNat n))
    else if c == '+' then (parseDigitsChars rest).map Int.ofNat
    else (parseDigitsChars (c :: rest)).map Int.ofNat

/-- Model of Python `int(s)` on a string: strip whitespace, optional single
sign, then a nonempty run of decimal digits; anything else raises
`ValueError` (`none`). -/
def parseIntChars (l : List Char) : Option Int :=
  parseSigned (trimChars l)

/-- Model of Python `str.isdigit()` on the order-id strings the tool sees:
nonempty and every character a decimal digit. -/
def isDigitStr (s : String) : Bool :=
  !s.data.isEmpty && s.data.all Char.isDigit

/-- control_queue.ensure_unique_id: raises the duplicate-id `ValueError`
when any current order has the given id. -/
def ensure_unique_id (orders : List Order) (order_id : String) : Except QErr Unit :=
  if orders.any (fun o => o.id == order_id) then Except.error QErr.duplicateId
  else Except.ok ()

/-- First element satisfying the predicate, together with its index
(the `for ... break` scan of pick_order, with the position the identity
comparison `order is not target` singles out). -/
def findFirst (p : Order → Bool) : List Order → Option (Nat × Order)
  | [] => none
  | o :: rest =>
    if p o then some (0, o)
    else (findFirst p rest).map (fun io => (io.fst + 1, io.snd))

/-- control_queue.pick_order.  `order_id` truthy: linear scan by id, raising
not-found when absent.  Otherwise: first order whose status matches `status`
when given, else the first order, raising not-found when none.  Finally, a
truthy `status` whose value differs from the target status raises the
status-mismatch error.  Returns the index and the picked order. -/
def pick_order (orders : List Order) (order_id : Option String)
    (status : Option String) : Except QErr (Nat × Order) :=
  let picked :=
    if strOptTruthy order_id then
      findFirst (fun o => o.id == order_id.getD "") orders
    else
      findFirst (fun o =>
        match status with
        | none => true
        | some st => o.status == st) orders
  match picked with
  | none => Except.error QErr.notFound
  | some (i, o) =>
    if strOptTruthy status && !(o.status == status.getD "") then
      Except.error QErr.invalidState
    else Except.ok (i, o)

/-- control_queue.generate_auto_id: increment `count`, then render it
zero-padded to 3 digits.  Returns the id and the updated payload. -/
def generate_auto_id (q : Snapshot) : String × Snapshot :=
  let c := q.count + 1
  (formatI03 c, { q with count := c })

/-- control_queue.maybe_update_count: when the explicit id is all digits and
its value `int(order_id)` exceeds `count`, advance `count` to that value. -/
def maybe_update_count (q : Snapshot) (order_id : String) : Snapshot :=
  if isDigitStr order_id then
    if (valDigits order_id.data : Int) > q.count then
      { q with count := (valDigits order_id.data : Int) }
    else q
  else q

/-- control_queue.register_order (pure core, `now` passed in): truthy
explicit id → uniqueness check, counter catch-up, use the id; otherwise
auto-generate then uniqueness check.  Appends the new RECEIVED order and
returns it with the payload that `save_queue` persists. -/
def register_order (order_id : Option String) (now : String) (q : Snapshot) :
    Except QErr (Order × Snapshot) :=
  if strOptTruthy order_id then
    let oid := order_id.getD ""
    match ensure_unique_id q.orders oid with
    | Except.error e => Except.error e
    | Except.ok _ =>
      let q1 := maybe_update_count q oid
      let entry : Order := { id := oid, status := "受付済み", queued_at := some now }
      Except.ok (entry, { q1 with orders := q1.orders ++ [entry] })
  else
    let (newId, q1) := generate_auto_id q
    match ensure_unique_id q1.orders newId with
    | Except.error e => Except.error e
    | Except.ok _ =>
      let entry : Order := { id := newId, status := "受付済み", queued_at := some now }
      Except.ok (entry, { q1 with orders := q1.orders ++ [entry] })

/-- The in-place field updates update_status performs on the picked order. -/
def applyStatus (o : Order) (new_status now : String) : Order :=
  let o1 := { o with status := new_status }
  if new_status == "仕掛中" then { o1 with updated_at := some now }
  else if new_status == "完了" then { o1 with completed_at := some now }
  else o1

/-- control_queue.update_status (pure core): pick by id with no status
requirement, set the status, stamp `updated_at` on IN_PROGRESS and
`completed_at` on DONE, persist. -/
def update_status (order_id new_status now : String) (q : Snapshot) :
    Except QErr (Order × Snapshot) :=
  match pick_order q.orders (some order_id) none with
  | Except.error e => Except.error e
  | Except.ok (i, o) =>
    let o1 := applyStatus o new_status now
    Except.ok (o1, { q with orders := q.orders.set i o1 })

/-- control_queue.remove_order (pure core): require the DONE status when
`require_complete`, pick per the selection policy, drop exactly the picked
element (the `order is not target` identity filter), persist. -/
def remove_order (order_id : Option String) (require_complete : Bool)
    (q : Snapshot) : Except QErr (Order × Snapshot) :=
  let status := if require_complete then some "完了" else none
  match pick_order q.orders order_id status with
  | Except.error e => Except.error e
  | Except.ok (i, o) => Except.ok (o, { q with orders := q.orders.eraseIdx i })

/-- One control-tool invocation. -/
inductive Op where
  | register (order_id : Option String) (now : String)
  | advance (order_id new_status now : String)
  | remove (order_id : Option String) (require_complete : Bool)

/-- Apply one operation to the loaded snapshot. -/
def applyOp : Op → Snapshot → Except QErr (Order × Snapshot)
  | Op.register oid now => register_order oid now
  | Op.advance oid st now => update_status oid st now
  | Op.remove oid req => remove_order oid req

/-- Effect of one invocation on the persisted snapshot: every operation is
load → transform → save, and a raised error propagates before `save_queue`
runs, leaving the stored snapshot untouched. -/
def runOp (op : Op) (stored : Snapshot) : Snapshot :=
  match applyOp op stored with
  | Except.ok (_, q) => q
  | Except.error _ => stored

/-- A run of `register` calls without an explicit id (one `now` stamp per
call), collecting the generated ids; stops at the first failure. -/
def autoRegSeq (nows : List String) (q : Snapshot) :
    Except QErr (Snapshot × List String) :=
  match nows with
  | [] => Except.ok (q, [])
  | now :: rest =>
    match register_order none now q with
    | Except.error e => Except.error e
    | Except.ok (o, q1) =>
      match autoRegSeq rest q1 with
      | Except.error e => Except.error e
      | Except.ok (q2, ids) => Except.ok (q2, o.id :: ids)

/-! ## The persisted JSON file (load_queue / save_queue) -/

/-- A parsed JSON value (the modelled program only ever writes and inspects
integral numbers). -/
inductive JVal where
  | jnull
  | jbool (b : Bool)
  | jint (n : Int)
  | jstr (s : String)
  | jarr (items : List JVal)
  | jobj (fields : List (String × JVal))

/-- Python `dict.get(key)` on a parsed JSON object (keys are unique in a
parsed JSON dict; first match). -/
def jget (fields : List (String × JVal)) (key : String) : Option JVal :=
  (fields.find? (fun kv => kv.fst == key)).map Prod.snd

/-- Python `int(x)` on a JSON-decoded value: ints are themselves, bools
coerce to 0/1, strings are parsed (ValueError when malformed), and
`None`/lists/dicts raise TypeError — `none` models a raised error, which
load_queue catches. -/
def pyInt : JVal → Option Int
  | JVal.jint n => some n
  | JVal.jbool b => some (if b then 1 else 0)
  | JVal.jstr s => parseIntChars s.data
  | _ => none

/-- What load_queue returns: the raw `orders` items (elements are arbitrary
JSON values — load_queue never validates them) and the coerced `count`. -/
structure JSnapshot where
  orders : List JVal
  count : Int

/-- The uncaught Python exception of the load path: `data.get(...)` on a
non-dict value raised by `json.load`. -/
inductive PyErr where
  | attributeError
deriving Repr, DecidableEq

/-- control_queue.load_queue.  `file = none` models a missing file or a
`json.JSONDecodeError`, both of which substitute the empty dict.  A file
that parses to a non-object makes `data.get` raise `AttributeError`, which
nothing catches.  On a dict: a non-list `orders` field (absent included)
resets to `[]`; a `count` field `int(...)` cannot coerce resets to `0`. -/
def load_queue (file : Option JVal) : Except PyErr JSnapshot :=
  let data : JVal := file.getD (JVal.jobj [])
  match data with
  | JVal.jobj fields =>
    let orders : List JVal :=
      match jget fields "orders" with
      | some (JVal.jarr items) => items
      | _ => []
    let count : Int :=
      match jget fields "count" with
      | some v => (pyInt v).getD 0
      | none => 0
    Except.ok { orders := orders, count := count }
  | _ => Except.error PyErr.attributeError

/-- control_queue.save_queue: serializes exactly
`{"orders": payload["orders"], "count": int(payload["count"])}`. -/
def save_queue (q : JSnapshot) : JVal :=
  JVal.jobj [("orders", JVal.jarr q.orders), ("count", JVal.jint q.count)]

/-! ## Display board (display_board.load_orders and the poll loop) -/

/-- WAITING_STATUSES of display_board.py. -/
def waitingStatuses : List String := ["受付済み", "仕掛中"]

/-- CALLING_STATUSES of display_board.py. -/
def callingStatuses : List String := ["完了"]

/-- `str(...).strip()` applied to a status value. -/
def pyStrip (s : String) : String := String.mk (trimChars s.data)

/-- `item.get("completed_at") or item.get("updated_at")`: Python `or` falls
back when `completed_at` is `None` or the empty string. -/
def completedOrUpdated (o : Order) : Option String :=
  match o.completed_at with
  | some s => if s == "" then o.updated_at else some s
  | none => o.updated_at

/-- Sort key of the waiting panel: `(parse_iso(queued_at), __index)`.
`pIso` abstracts display_board.parse_iso, which maps an optional timestamp
string to a comparable epoch value (0 for missing/blank/malformed input);
the sort is by this key for every such valuation. -/
def waitKey (pIso : Option String → Int) (io : Nat × Order) : Int × Nat :=
  (pIso io.snd.queued_at, io.fst)

/-- Sort key of the calling panel:
`(parse_iso(completed_at or updated_at), __index)`. -/
def callKey (pIso : Option String → Int) (io : Nat × Order) : Int × Nat :=
  (pIso (completedOrUpdated io.snd), io.fst)

/-- Lexicographic comparison of sort keys (Python tuple comparison). -/
def keyLe (a b : Int × Nat) : Bool :=
  a.fst < b.fst || (a.fst == b.fst && a.snd ≤ b.snd)

/-- display_board.load_orders: enumerate the orders, route each by its
stripped status (waiting / calling / dropped), then stable-sort each panel
by its key.  The single if/elif pass of the source equals the two filters
because the status sets are disjoint.  Items carry their insertion index
(the `__index` field the source adds). -/
def load_orders (pIso : Option String → Int) (orders : List Order) :
    List (Nat × Order) × List (Nat × Order) :=
  let indexed := orders.enum
  let waiting := indexed.filter (fun io => waitingStatuses.contains (pyStrip io.snd.status))
  let calling := indexed.filter (fun io => callingStatuses.contains (pyStrip io.snd.status))
  (waiting.mergeSort (fun a b => keyLe (waitKey pIso a) (waitKey pIso b)),
   calling.mergeSort (fun a b => keyLe (callKey pIso a) (callKey pIso b)))

/-- State of QueueDisplayApp that _poll_queue touches: the modification-time
watermark and the two rendered panels. -/
structure PollState where
  last_mtime : Option Int
  waiting : List (Nat × Order)
  calling : List (Nat × Order)
deriving DecidableEq

/-- What one tick observes of the queue file: absent (`stat` raises
FileNotFoundError), or present with a modification time and the outcome of
reading it (`Except.error` = load_orders raised: missing again mid-read or
malformed JSON — caught by the `except Exception` arm). -/
inductive FileObs where
  | missing
  | present (mtime : Int)
      (content : Except Unit (List (Nat × Order) × List (Nat × Order)))

/-- Outcome of one _poll_queue tick. -/
structure PollResult where
  state : PollState
  reloaded : Bool
  rescheduled : Bool
deriving DecidableEq

/-- QueueDisplayApp._poll_queue, one tick.  Missing file: error text only,
state kept, next tick scheduled.  Unchanged mtime: nothing recomputed.
Changed mtime: reload; on success update the panels and only then advance
the watermark; on failure keep the watermark so the next tick retries.
Every branch reschedules the poll. -/
def poll_queue (st : PollState) : FileObs → PollResult
  | FileObs.missing => { state := st, reloaded := false, rescheduled := true }
  | FileObs.present mtime content =>
    if st.last_mtime == some mtime then
      { state := st, reloaded := false, rescheduled := true }
    else
      match content with
      | Except.ok (w, c) =>
        { state := { last_mtime := some mtime, waiting := w, calling := c },
          reloaded := true, rescheduled := true }
      | Except.error _ =>
        { state := st, reloaded := true, rescheduled := true }

/-! ## Arithmetic facts about the decimal rendering and parsing helpers -/

theorem digitChar_mem_decDigits {d : Nat} (h : d < 10) : digitChar d ∈ decDigits := by
  interval_cases d <;> decide

theorem digitVal_digitChar {d : Nat} (h : d < 10) : digitVal (digitChar d) = d := by
  interval_cases d <;> decide

theorem natDigitsAux_subset {fuel n : Nat} (hfn : n < fuel) :
    ∀ c ∈ natDigitsAux fuel n, c ∈ decDigits := by
  induction fuel generalizing n with
  | zero => omega
  | succ fuel ih =>
    rw [natDigitsAux]
    by_cases h : n < 10
    · rw [if_pos h]
      intro c hc
      rw [List.mem_singleton] at hc
      exact hc ▸ digitChar_mem_decDigits h
    · rw [if_neg h]
      intro c hc
      rcases List.mem_append.mp hc with h1 | h1
      · have hlt : n / 10 < n := Nat.div_lt_self (by omega) (by omega)
        exact ih (by omega) c h1
      · rw [List.mem_singleton] at h1
        exact h1 ▸ digitChar_mem_decDigits (Nat.mod_lt _ (by omega))

theorem natDigits_subset_decDigits (n : Nat) : ∀ c ∈ natDigits n, c ∈ decDigits :=
  natDigitsAux_subset (Nat.lt_succ_self n)

theorem natDigitsAux_ne_nil {fuel n : Nat} (hfn : n < fuel) :
    natDigitsAux fuel n ≠ [] := by
  cases fuel with
  | zero => omega
  | succ fuel =>
    rw [natDigitsAux]
    by_cases h : n < 10
    · rw [if_pos h]
      simp
    · rw [if_neg h]
      simp

theorem natDigits_ne_nil (n : Nat) : natDigits n ≠ [] :=
  natDigitsAux_ne_nil (Nat.lt_succ_self n)

theorem valFrom_append (a : Nat) (l1 l2 : List Char) :
    valFrom a (l1 ++ l2) = valFrom (valFrom a l1) l2 :=
  List.foldl_append _ _ _ _

theorem valDigits_natDigitsAux {fuel n : Nat} (hfn : n < fuel) :
    valDigits (natDigitsAux fuel n) = n := by
  induction fuel generalizing n with
  | zero => omega
  | succ fuel ih =>
    rw [natDigitsAux]
    by_cases h : n < 10
    · rw [if_pos h]
      simp [valDigits, valFrom, digitVal_digitChar h]
    · rw [if_neg h]
      rw [valDigits, valFrom_append]
      have hlt : n / 10 < n := Nat.div_lt_self (by omega) (by omega)
      have hv := ih (n := n / 10) (by omega)
      rw [valDigits] at hv
      rw [hv]
      simp [valFrom, digitVal_digitChar (Nat.mod_lt n (by omega))]
      omega

theorem valDigits_natDigits (n : Nat) : valDigits (natDigits n) = n :=
  valDigits_natDigitsAux (Nat.lt_succ_self n)

theorem valFrom_replicate_zero (a k : Nat) :
    valFrom a (List.replicate k '0') = a * 10 ^ k := by
  induction k generalizing a with
  | zero => simp [valFrom]
  | succ k ih =>
    rw [List.replicate_succ, valFrom, List.foldl_cons]
    show valFrom (a * 10 + digitVal '0') (List.replicate k '0') = _
    rw [ih]
    have : digitVal '0' = 0 := by decide
    rw [this]
    ring

theorem valDigits_padZeros (w : Nat) (l : List Char) :
    valDigits (padZeros w l) = valDigits l := by
  rw [padZeros, valDigits, valFrom_append]
  rw [show valFrom 0 (List.replicate (w - l.length) '0') = 0 by
    rw [valFrom_replicate_zero]; ring]
  rfl

theorem padZeros_subset (w : Nat) (l : List Char) (s : List Char)
    (hz : '0' ∈ s) (hl : ∀ c ∈ l, c ∈ s) : ∀ c ∈ padZeros w l, c ∈ s := by
  intro c hc
  rcases List.mem_append.mp hc with h1 | h1
  · exact (List.eq_of_mem_replicate h1) ▸ hz
  · exact hl c h1

theorem padZeros_length (w : Nat) (l : List Char) :
    (padZeros w l).length = max w l.length := by
  simp [padZeros]
  omega

theorem decDigits_not_ws : ∀ c ∈ decDigits, c.isWhitespace = false := by decide

theorem decDigits_isDigit : ∀ c ∈ decDigits, c.isDigit = true := by decide

theorem trimChars_eq_self {l : List Char} (h : ∀ c ∈ l, c.isWhitespace = false) :
    trimChars l = l := by
  have h1 : l.dropWhile Char.isWhitespace = l := by
    rw [List.dropWhile_eq_self_iff]
    intro hl
    rw [h _ (List.get_mem l 0 hl)]
    simp
  rw [trimChars, h1]
  have h2 : l.reverse.dropWhile Char.isWhitespace = l.reverse := by
    rw [List.dropWhile_eq_self_iff]
    intro hl
    rw [h _ (List.mem_reverse.mp (List.get_mem l.reverse 0 hl))]
    simp
  rw [h2, List.reverse_reverse]

theorem parseDigitsChars_of_digits {l : List Char} (hne : l ≠ [])
    (hd : ∀ c ∈ l, c ∈ decDigits) : parseDigitsChars l = some (valDigits l) := by
  rw [parseDigitsChars, if_pos]
  rw [Bool.and_eq_true]
  constructor
  · simpa using hne
  · rw [List.all_eq_true]
    intro c hc
    exact decDigits_isDigit c (hd c hc)

theorem padZeros_natDigits_ne_nil (w n : Nat) : padZeros w (natDigits n) ≠ [] := by
  intro hcon
  have hlen := congrArg List.length hcon
  rw [padZeros_length] at hlen
  simp only [List.length_nil] at hlen
  have h0 : (natDigits n).length = 0 := by omega
  exact natDigits_ne_nil n (List.eq_nil_of_length_eq_zero h0)

/-- Parsing inverts rendering: `int()` applied to the `f"{n:03d}"` string
recovers `n`, for every integer `n`. -/
theorem parseIntChars_formatI03 (n : Int) :
    parseIntChars (formatI03 n).data = some n := by
  by_cases hn : n < 0
  · rw [formatI03, if_pos hn]
    show parseIntChars ('-' :: padZeros 2 (natDigits n.natAbs)) = some n
    have hnws : ∀ c ∈ '-' :: padZeros 2 (natDigits n.natAbs), c.isWhitespace = false := by
      intro c hc
      rcases List.mem_cons.mp hc with h1 | h1
      · rw [h1]; decide
      · exact decDigits_not_ws c
          (padZeros_subset _ _ _ (by decide) (natDigits_subset_decDigits _) c h1)
    rw [parseIntChars, trimChars_eq_self hnws]
    rw [parseSigned, if_pos (by decide)]
    rw [parseDigitsChars_of_digits (padZeros_natDigits_ne_nil 2 n.natAbs)
      (padZeros_subset _ _ _ (by decide) (natDigits_subset_decDigits _))]
    rw [valDigits_padZeros, valDigits_natDigits]
    simp only [Option.map_some', Int.ofNat_eq_coe]
    congr 1
    omega
  · rw [formatI03, if_neg hn]
    show parseIntChars (padZeros 3 (natDigits n.natAbs)) = some n
    have hsub : ∀ c ∈ padZeros 3 (natDigits n.natAbs), c ∈ decDigits :=
      padZeros_subset _ _ _ (by decide) (natDigits_subset_decDigits _)
    have hnws : ∀ c ∈ padZeros 3 (natDigits n.natAbs), c.isWhitespace = false :=
      fun c hc => decDigits_not_ws c (hsub c hc)
    rw [parseIntChars, trimChars_eq_self hnws]
    cases hpz : padZeros 3 (natDigits n.natAbs) with
    | nil => exact absurd hpz (padZeros_natDigits_ne_nil 3 n.natAbs)
    | cons c rest =>
      have hcmem : c ∈ decDigits := hsub c (hpz ▸ List.mem_cons_self c rest)
      have hdash : (c == '-') = false := by fin_cases hcmem <;> decide
      have hplus : (c == '+') = false := by fin_cases hcmem <;> decide
      rw [parseSigned, hdash, hplus]
      simp only [Bool.false_eq_true, if_false]
      rw [parseDigitsChars_of_digits (by simp) (hpz ▸ hsub)]
      rw [← hpz, valDigits_padZeros, valDigits_natDigits]
      simp only [Option.map_some', Int.ofNat_eq_coe]
      congr 1
      omega

/-- The rendered id has at least three characters. -/
theorem formatI03_length (n : Int) : 3 ≤ (formatI03 n).data.length := by
  rw [formatI03]
  split
  · show 3 ≤ ('-' :: padZeros 2 (natDigits n.natAbs)).length
    rw [List.length_cons, padZeros_length]
    omega
  · show 3 ≤ (padZeros 3 (natDigits n.natAbs)).length
    rw [padZeros_length]
    omega

/-! ## Characterization of the linear scans and the operations -/

theorem strOptTruthy_of_ne {s : String} (h : s ≠ "") :
    strOptTruthy (some s) = true := by
  simp [strOptTruthy, h]

theorem findFirst_eq_none_iff {p : Order → Bool} {orders : List Order} :
    findFirst p orders = none ↔ ∀ o ∈ orders, p o = false := by
  induction orders with
  | nil => simp [findFirst]
  | cons o rest ih =>
    rw [findFirst]
    by_cases hp : p o
    · simp [hp]
    · simp only [hp, Bool.false_eq_true, if_false, Option.map_eq_none']
      rw [ih]
      simp [hp]

theorem findFirst_some {p : Order → Bool} {orders : List Order} {i : Nat} {o : Order}
    (h : findFirst p orders = some (i, o)) :
    orders[i]? = some o ∧ p o = true := by
  induction orders generalizing i with
  | nil => simp [findFirst] at h
  | cons o0 rest ih =>
    rw [findFirst] at h
    by_cases hp : p o0
    · rw [if_pos hp] at h
      simp only [Option.some.injEq, Prod.mk.injEq] at h
      obtain ⟨h1, h2⟩ := h
      subst h2
      rw [← h1]
      exact ⟨by simp, hp⟩
    · rw [if_neg hp] at h
      cases hf : findFirst p rest with
      | none => rw [hf] at h; simp at h
      | some io =>
        obtain ⟨i0, oo⟩ := io
        rw [hf] at h
        simp only [Option.map_some', Option.some.injEq, Prod.mk.injEq] at h
        obtain ⟨h1, h2⟩ := h
        subst h2
        rw [← h1]
        rcases ih hf with ⟨hget, hpo⟩
        exact ⟨by simpa using hget, hpo⟩

theorem findFirst_of_mem {p : Order → Bool} {orders : List Order} {o : Order}
    (hmem : o ∈ orders) (hp : p o = true) :
    ∃ i o1, findFirst p orders = some (i, o1) ∧ p o1 = true := by
  induction orders with
  | nil => simp at hmem
  | cons o0 rest ih =>
    rw [findFirst]
    by_cases hp0 : p o0
    · exact ⟨0, o0, by rw [if_pos hp0], hp0⟩
    · rw [if_neg hp0]
      rcases List.mem_cons.mp hmem with h1 | h1
      · exact absurd (h1 ▸ hp) hp0
      · rcases ih h1 with ⟨i, o1, hf, hpo1⟩
        exact ⟨i + 1, o1, by rw [hf]; rfl, hpo1⟩

theorem maybe_update_count_le (q : Snapshot) (i : String) :
    q.count ≤ (maybe_update_count q i).count := by
  rw [maybe_update_count]
  by_cases hd : isDigitStr i
  · rw [if_pos hd]
    by_cases hv : (valDigits i.data : Int) > q.count
    · rw [if_pos hv]
      exact le_of_lt hv
    · rw [if_neg hv]
  · rw [if_neg hd]

theorem maybe_update_count_orders (q : Snapshot) (i : String) :
    (maybe_update_count q i).orders = q.orders := by
  rw [maybe_update_count]
  by_cases hd : isDigitStr i
  · rw [if_pos hd]
    by_cases hv : (valDigits i.data : Int) > q.count
    · rw [if_pos hv]
    · rw [if_neg hv]
  · rw [if_neg hd]

/-- A falsy (empty) explicit id sends register_order down its auto-id
branch, which never reads the argument. -/
theorem register_empty_eq (now : String) (q : Snapshot) :
    register_order (some "") now q = register_order none now q := by
  have h : strOptTruthy (some "") = false := by decide
  have h2 : strOptTruthy none = false := rfl
  rw [register_order, register_order, h, h2]
  simp only [Bool.false_eq_true, if_false]

/-- A falsy (empty) id sends pick_order down its status-based selection,
which never reads the argument. -/
theorem pick_empty_eq (orders : List Order) (status : Option String) :
    pick_order orders (some "") status = pick_order orders none status := by
  have h : strOptTruthy (some "") = false := by decide
  have h2 : strOptTruthy none = false := rfl
  rw [pick_order, pick_order, h, h2]
  simp only [Bool.false_eq_true, if_false]

theorem remove_empty_eq (req : Bool) (q : Snapshot) :
    remove_order (some "") req q = remove_order none req q := by
  rw [remove_order, remove_order, pick_empty_eq]

/-- register_order with no explicit id, closed form. -/
theorem register_auto_eq (q : Snapshot) (now : String) :
    register_order none now q =
      (if q.orders.any (fun o => o.id == formatI03 (q.count + 1)) then
        Except.error QErr.duplicateId
      else
        Except.ok
          ({ id := formatI03 (q.count + 1), status := "受付済み", queued_at := some now },
           { orders := q.orders ++
               [{ id := formatI03 (q.count + 1), status := "受付済み",
                  queued_at := some now }],
             count := q.count + 1 })) := by
  rw [register_order]
  simp only [strOptTruthy, Bool.false_eq_true, if_false, generate_auto_id,
    ensure_unique_id]
  by_cases hdup : q.orders.any (fun o => o.id == formatI03 (q.count + 1))
  · rw [if_pos hdup, if_pos hdup]
  · rw [if_neg hdup, if_neg hdup]

/-- register_order with a truthy explicit id, closed form. -/
theorem register_explicit_eq (q : Snapshot) (now i : String) (h : i ≠ "") :
    register_order (some i) now q =
      (if q.orders.any (fun o => o.id == i) then Except.error QErr.duplicateId
      else
        Except.ok ({ id := i, status := "受付済み", queued_at := some now },
          { orders := q.orders ++ [{ id := i, status := "受付済み", queued_at := some now }],
            count := (maybe_update_count q i).count })) := by
  rw [register_order, strOptTruthy_of_ne h]
  simp only [if_true, Option.getD_some, ensure_unique_id]
  by_cases hdup : q.orders.any (fun o => o.id == i)
  · rw [if_pos hdup, if_pos hdup]
  · rw [if_neg hdup, if_neg hdup]
    rw [maybe_update_count_orders]

/-- update_status, closed form for a truthy id. -/
theorem update_status_eq (i st now : String) (q : Snapshot) (h : i ≠ "") :
    update_status i st now q =
      (match findFirst (fun o => o.id == i) q.orders with
      | none => Except.error QErr.notFound
      | some (j, o) =>
        Except.ok (applyStatus o st now,
          { q with orders := q.orders.set j (applyStatus o st now) })) := by
  rw [update_status, pick_order, strOptTruthy_of_ne h]
  simp only [if_true, Option.getD_some]
  cases hf : findFirst (fun o => o.id == i) q.orders with
  | none => rfl
  | some jo =>
    obtain ⟨j, o⟩ := jo
    simp [strOptTruthy]

/-- remove_order with a truthy id, closed form. -/
theorem remove_order_id_eq (i : String) (req : Bool) (q : Snapshot) (h : i ≠ "") :
    remove_order (some i) req q =
      (match findFirst (fun o => o.id == i) q.orders with
      | none => Except.error QErr.notFound
      | some (j, o) =>
        if req && !(o.status == "完了") then Except.error QErr.invalidState
        else Except.ok (o, { q with orders := q.orders.eraseIdx j })) := by
  rw [remove_order, pick_order, strOptTruthy_of_ne h]
  cases req with
  | false =>
    simp only [if_true, Bool.false_eq_true, if_false, Option.getD_some]
    cases hf : findFirst (fun o => o.id == i) q.orders with
    | none => rfl
    | some jo =>
      obtain ⟨j, o⟩ := jo
      simp [strOptTruthy]
  | true =>
    simp only [if_true, Option.getD_some]
    cases hf : findFirst (fun o => o.id == i) q.orders with
    | none => rfl
    | some jo =>
      obtain ⟨j, o⟩ := jo
      have ht : strOptTruthy (some "完了") = true := by decide
      simp only [ht, Option.getD_some, Bool.true_and]
      by_cases hs : o.status == "完了"
      · simp [hs]
      · simp [hs]

/-- remove_order with no id under require_complete (handoff), closed form:
the earliest DONE order is selected and removed. -/
theorem remove_order_handoff_eq (q : Snapshot) :
    remove_order none true q =
      (match findFirst (fun o => o.status == "完了") q.orders with
      | none => Except.error QErr.notFound
      | some (j, o) =>
        Except.ok (o, { q with orders := q.orders.eraseIdx j })) := by
  rw [remove_order, pick_order]
  have h : strOptTruthy none = false := rfl
  simp only [if_true, h, Bool.false_eq_true, if_false]
  cases hf : findFirst (fun o =>
      match (if (true : Bool) then some "完了" else none) with
      | none => true
      | some st => o.status == st) q.orders with
  | none =>
    rw [show (findFirst (fun o => o.status == "完了") q.orders) = none from hf]
  | some jo =>
    obtain ⟨j, o⟩ := jo
    have hp := (findFirst_some hf).2
    simp only [if_true] at hp
    simp at hp
    rw [show (findFirst (fun o => o.status == "完了") q.orders) = some (j, o) from hf]
    have ht : strOptTruthy (some "完了") = true := by decide
    simp [ht, hp]

/-- remove_order with no id and no status requirement (cancel with a falsy
id), closed form: the first order overall is selected and removed. -/
theorem remove_order_first_eq (q : Snapshot) :
    remove_order none false q =
      (match q.orders with
      | [] => Except.error QErr.notFound
      | o :: rest => Except.ok (o, { q with orders := rest })) := by
  rw [remove_order, pick_order]
  have h : strOptTruthy none = false := rfl
  simp only [h, Bool.false_eq_true, if_false]
  cases ho : q.orders with
  | nil => simp [findFirst]
  | cons o rest => simp [findFirst]

theorem update_status_count {i st now : String} {q q1 : Snapshot} {o : Order}
    (h : update_status i st now q = Except.ok (o, q1)) : q1.count = q.count := by
  rw [update_status] at h
  cases hp : pick_order q.orders (some i) none with
  | error e => rw [hp] at h; simp at h
  | ok jo =>
    obtain ⟨j, oo⟩ := jo
    rw [hp] at h
    simp only [Except.ok.injEq, Prod.mk.injEq] at h
    rw [← h.2]

theorem remove_order_count {oid : Option String} {req : Bool} {q q1 : Snapshot}
    {o : Order} (h : remove_order oid req q = Except.ok (o, q1)) :
    q1.count = q.count := by
  rw [remove_order] at h
  cases hp : pick_order q.orders oid (if req then some "完了" else none) with
  | error e => rw [hp] at h; simp at h
  | ok jo =>
    obtain ⟨j, oo⟩ := jo
    rw [hp] at h
    simp only [Except.ok.injEq, Prod.mk.injEq] at h
    rw [← h.2]

theorem register_order_count_le {oid : Option String} {now : String}
    {q q1 : Snapshot} {o : Order}
    (h : register_order oid now q = Except.ok (o, q1)) : q.count ≤ q1.count := by
  have hauto : ∀ {qq : Snapshot},
      register_order none now qq = Except.ok (o, q1) → qq.count ≤ q1.count := by
    intro qq hh
    rw [register_auto_eq] at hh
    by_cases hdup : qq.orders.any (fun o => o.id == formatI03 (qq.count + 1))
    · rw [if_pos hdup] at hh
      simp at hh
    · rw [if_neg hdup] at hh
      simp only [Except.ok.injEq, Prod.mk.injEq] at hh
      rw [← hh.2]
      show qq.count ≤ qq.count + 1
      omega
  match oid with
  | none => exact hauto h
  | some s =>
    by_cases hs : s = ""
    · rw [hs, register_empty_eq] at h
      exact hauto h
    · rw [register_explicit_eq q now s hs] at h
      by_cases hdup : q.orders.any (fun o => o.id == s)
      · rw [if_pos hdup] at h
        simp at h
      · rw [if_neg hdup] at h
        simp only [Except.ok.injEq, Prod.mk.injEq] at h
        rw [← h.2]
        exact maybe_update_count_le q s

/-- A successful run of auto-registrations advances the counter by its
length and generates exactly the rendered consecutive counter values. -/
theorem autoRegSeq_ok {nows : List String} {q q2 : Snapshot} {ids : List String}
    (h : autoRegSeq nows q = Except.ok (q2, ids)) :
    q2.count = q.count + nows.length ∧
    ids = (List.range nows.length).map (fun k => formatI03 (q.count + 1 + Int.ofNat k)) := by
  induction nows generalizing q ids with
  | nil =>
    rw [autoRegSeq] at h
    simp only [Except.ok.injEq, Prod.mk.injEq] at h
    obtain ⟨h1, h2⟩ := h
    subst h1
    subst h2
    simp
  | cons now rest ih =>
    rw [autoRegSeq] at h
    cases hreg : register_order none now q with
    | error e => rw [hreg] at h; simp at h
    | ok oq =>
      obtain ⟨o, q1⟩ := oq
      rw [hreg] at h
      have h2 : (match autoRegSeq rest q1 with
          | Except.error e => Except.error e
          | Except.ok (q2a, idsa) => Except.ok (q2a, o.id :: idsa)) =
          Except.ok (q2, ids) := h
      cases hrec : autoRegSeq rest q1 with
      | error e => rw [hrec] at h2; simp at h2
      | ok qi =>
        obtain ⟨q2x, idsx⟩ := qi
        rw [hrec] at h2
        simp only [Except.ok.injEq, Prod.mk.injEq] at h2
        obtain ⟨h1, h2⟩ := h2
        subst h1
        subst h2
        rw [register_auto_eq] at hreg
        by_cases hdup : q.orders.any (fun o => o.id == formatI03 (q.count + 1))
        · rw [if_pos hdup] at hreg
          simp at hreg
        · rw [if_neg hdup] at hreg
          simp only [Except.ok.injEq, Prod.mk.injEq] at hreg
          obtain ⟨ho, hq1⟩ := hreg
          have hc1 : q1.count = q.count + 1 := by rw [← hq1]
          rcases ih hrec with ⟨hcnt, hids⟩
          constructor
          · rw [hcnt, hc1, List.length_cons]
            push_cast
            ring
          · rw [hids, ← ho]
            rw [List.length_cons, List.range_succ_eq_map]
            rw [List.map_cons, List.map_map]
            congr 1
            · show formatI03 (q.count + 1) = formatI03 (q.count + 1 + Int.ofNat 0)
              congr 1
              simp
            · apply List.map_congr_left
              intro k _
              simp only [Function.comp_apply]
              congr 1
              rw [hc1]
              simp only [Int.ofNat_eq_coe]
              push_cast
              ring

/-! ## Claims -/

/-- C10: An empty-string id argument is treated by the control operations
exactly like an omitted id: register("") auto-generates instead of
registering the literal id "", and remove with id "" falls back to
status-based selection — under require_complete it removes the earliest DONE
order, and without a status requirement it removes the first order overall,
instead of failing NotFound for a literal id "". -/
theorem empty_id_acts_as_omitted :
    (∀ now q, register_order (some "") now q = register_order none now q) ∧
    (∀ req q, remove_order (some "") req q = remove_order none req q) ∧
    (∀ q, remove_order (some "") true q =
      (match findFirst (fun o => o.status == "完了") q.orders with
      | none => Except.error QErr.notFound
      | some (j, o) => Except.ok (o, { q with orders := q.orders.eraseIdx j }))) ∧
    (∀ q, remove_order (some "") false q =
      (match q.orders with
      | [] => Except.error QErr.notFound
      | o :: rest => Except.ok (o, { q with orders := rest }))) := by
  refine ⟨register_empty_eq, remove_empty_eq, ?_, ?_⟩
  · intro q
    rw [remove_empty_eq]
    exact remove_order_handoff_eq q
  · intro q
    rw [remove_empty_eq]
    exact remove_order_first_eq q

/-- C8: Saving a loaded snapshot and loading again reproduces the same
orders and the same counter: whenever load succeeds with snapshot `s`,
loading the serialization of `s` yields exactly `s`. -/
theorem load_save_roundtrip :
    ∀ (file : Option JVal) (s : JSnapshot), load_queue file = Except.ok s →
      load_queue (some (save_queue s)) = Except.ok s := by
  intro file s _h
  obtain ⟨orders, count⟩ := s
  rfl

/-- Witness for C8 at the empty file. -/
theorem load_save_roundtrip_witness :
    load_queue (some (save_queue { orders := [], count := 0 })) =
      Except.ok { orders := [], count := 0 } :=
  load_save_roundtrip none { orders := [], count := 0 } rfl

/-- C2 (counterexample): a persisted file whose content is valid JSON but
not an object — here the empty JSON array — makes load raise
(`data.get` on a list), contradicting the claim that load returns a
snapshot for every state of the persisted file. -/
theorem load_queue_nonobject_raises :
    load_queue (some (JVal.jarr [])) = Except.error PyErr.attributeError := rfl

/-- C2 (amended): when the persisted file is absent or unparseable, load
returns the empty snapshot; when it parses to a JSON object, load succeeds
and resets a non-sequence `orders` and a non-int-coercible `count` each to
its empty default, independently of the other field. -/
theorem load_queue_partial_recovery :
    load_queue none = Except.ok { orders := [], count := 0 } ∧
    (∀ fields, ∃ s, load_queue (some (JVal.jobj fields)) = Except.ok s) ∧
    (∀ fields s, load_queue (some (JVal.jobj fields)) = Except.ok s →
      (∀ items, jget fields "orders" = some (JVal.jarr items) → s.orders = items) ∧
      ((∀ items, jget fields "orders" ≠ some (JVal.jarr items)) → s.orders = []) ∧
      (∀ v n, jget fields "count" = some v → pyInt v = some n → s.count = n) ∧
      ((∀ n, (jget fields "count").bind pyInt ≠ some n) → s.count = 0)) := by
  refine ⟨rfl, fun fields => ⟨_, rfl⟩, ?_⟩
  intro fields s h
  rw [load_queue] at h
  simp only [Option.getD_some] at h
  rw [Except.ok.injEq] at h
  subst h
  refine ⟨?_, ?_, ?_, ?_⟩
  · intro items hi
    show (match jget fields "orders" with
      | some (JVal.jarr items) => items
      | _ => []) = items
    rw [hi]
  · intro hno
    show (match jget fields "orders" with
      | some (JVal.jarr items) => items
      | _ => []) = []
    cases hj : jget fields "orders" with
    | none => rfl
    | some v =>
      cases v with
      | jarr items => exact absurd hj (hno items)
      | jnull => rfl
      | jbool b => rfl
      | jint n => rfl
      | jstr st => rfl
      | jobj f2 => rfl
  · intro v n hv hn
    show (match jget fields "count" with
      | some v => (pyInt v).getD 0
      | none => 0) = n
    rw [hv]
    show (pyInt v).getD 0 = n
    rw [hn]
    rfl
  · intro hnone
    show (match jget fields "count" with
      | some v => (pyInt v).getD 0
      | none => 0) = (0 : Int)
    cases hj : jget fields "count" with
    | none => rfl
    | some v =>
      show (pyInt v).getD 0 = (0 : Int)
      cases hp : pyInt v with
      | none => rfl
      | some n =>
        exfalso
        apply hnone n
        rw [hj]
        show pyInt v = some n
        exact hp

/-- Witness for C2 (amended): a valid orders list survives a corrupt
counter ("abc"), which resets to 0. -/
theorem load_queue_partial_recovery_witness :
    ({ orders := [JVal.jint 5], count := 0 } : JSnapshot).orders = [JVal.jint 5] ∧
    ({ orders := [JVal.jint 5], count := 0 } : JSnapshot).count = 0 := by
  have h := load_queue_partial_recovery.2.2
    [("orders", JVal.jarr [JVal.jint 5]), ("count", JVal.jstr "abc")]
    { orders := [JVal.jint 5], count := 0 } rfl
  refine ⟨h.1 [JVal.jint 5] rfl, h.2.2.2 ?_⟩
  intro n hn
  rw [show (jget [("orders", JVal.jarr [JVal.jint 5]), ("count", JVal.jstr "abc")]
    "count").bind pyInt = none from rfl] at hn
  exact Option.noConfusion hn

/-- C9: One tick of the display poll loop: an unchanged modification time
triggers no reload and no recomputation; a changed one reloads, and the
watermark advances to the new time only when the reload succeeds — a failed
reload leaves the whole state (watermark included) unchanged so the next
tick retries; and every observation, the missing file included, reschedules
the next tick (the loop never terminates). -/
theorem poll_watermark_discipline :
    (∀ st m c, st.last_mtime = some m →
        poll_queue st (FileObs.present m c) =
          { state := st, reloaded := false, rescheduled := true }) ∧
    (∀ st m w c, st.last_mtime ≠ some m →
        poll_queue st (FileObs.present m (Except.ok (w, c))) =
          { state := { last_mtime := some m, waiting := w, calling := c },
            reloaded := true, rescheduled := true }) ∧
    (∀ st m e, st.last_mtime ≠ some m →
        poll_queue st (FileObs.present m (Except.error e)) =
          { state := st, reloaded := true, rescheduled := true }) ∧
    (∀ st f, (poll_queue st f).rescheduled = true) := by
  refine ⟨?_, ?_, ?_, ?_⟩
  · intro st m c h
    have hb : (st.last_mtime == some m) = true := beq_iff_eq.mpr h
    simp only [poll_queue, hb, if_true]
  · intro st m w c h
    have hb : (st.last_mtime == some m) = false := beq_eq_false_iff_ne.mpr h
    simp only [poll_queue, hb, Bool.false_eq_true, if_false]
  · intro st m e h
    have hb : (st.last_mtime == some m) = false := beq_eq_false_iff_ne.mpr h
    simp only [poll_queue, hb, Bool.false_eq_true, if_false]
  · intro st f
    cases f with
    | missing => rfl
    | present m c =>
      simp only [poll_queue]
      by_cases h : (st.last_mtime == some m) = true
      · rw [if_pos h]
      · rw [if_neg h]
        cases c with
        | ok wc => obtain ⟨w, cl⟩ := wc; rfl
        | error e => rfl

/-- C3: advance (update_status) and remove (remove_order) fail with
NotFound for every given (truthy) id absent from the snapshot, and every
failing control operation performs no save: the stored snapshot after a
failed operation is exactly the loaded one. -/
theorem missing_id_fails_without_save :
    (∀ q i st now, i ≠ "" → (∀ o ∈ q.orders, o.id ≠ i) →
        update_status i st now q = Except.error QErr.notFound) ∧
    (∀ q i req, i ≠ "" → (∀ o ∈ q.orders, o.id ≠ i) →
        remove_order (some i) req q = Except.error QErr.notFound) ∧
    (∀ op q e, applyOp op q = Except.error e → runOp op q = q) := by
  have hfind : ∀ (q : Snapshot) (i : String), (∀ o ∈ q.orders, o.id ≠ i) →
      findFirst (fun o => o.id == i) q.orders = none := by
    intro q i h
    rw [findFirst_eq_none_iff]
    intro o ho
    exact beq_eq_false_iff_ne.mpr (h o ho)
  refine ⟨?_, ?_, ?_⟩
  · intro q i st now hi habs
    rw [update_status_eq i st now q hi, hfind q i habs]
  · intro q i req hi habs
    rw [remove_order_id_eq i req q hi, hfind q i habs]
  · intro op q e h
    rw [runOp, h]

/-- Witness for C3 at a concrete absent id. -/
theorem missing_id_fails_without_save_witness :
    update_status "001" "完了" "t" { orders := [], count := 0 } =
      Except.error QErr.notFound ∧
    remove_order (some "001") true { orders := [], count := 0 } =
      Except.error QErr.notFound ∧
    runOp (Op.advance "001" "完了" "t") { orders := [], count := 0 } =
      { orders := [], count := 0 } :=
  ⟨missing_id_fails_without_save.1 { orders := [], count := 0 } "001" "完了" "t"
      (by decide) (by simp),
   missing_id_fails_without_save.2.1 { orders := [], count := 0 } "001" true
      (by decide) (by simp),
   missing_id_fails_without_save.2.2 (Op.advance "001" "完了" "t")
      { orders := [], count := 0 } QErr.notFound (by rfl)⟩

theorem applyStatus_status (o : Order) (st now : String) :
    (applyStatus o st now).status = st := by
  rw [applyStatus]
  by_cases h1 : st = "仕掛中"
  · simp [beq_iff_eq, h1]
  · by_cases h2 : st = "完了"
    · simp [beq_iff_eq, h1, h2]
    · simp [beq_iff_eq, h1, h2]

theorem applyStatus_updated (o : Order) (st now : String) :
    (applyStatus o st now).updated_at =
      (if st = "仕掛中" then some now else o.updated_at) := by
  rw [applyStatus]
  by_cases h1 : st = "仕掛中"
  · simp [beq_iff_eq, h1]
  · by_cases h2 : st = "完了"
    · simp [beq_iff_eq, h1, h2]
    · simp [beq_iff_eq, h1, h2]

theorem applyStatus_completed (o : Order) (st now : String) :
    (applyStatus o st now).completed_at =
      (if st = "完了" then some now else o.completed_at) := by
  rw [applyStatus]
  by_cases h1 : st = "仕掛中"
  · have h2 : st ≠ "完了" := by rw [h1]; decide
    simp [beq_iff_eq, h1, h2]
  · by_cases h2 : st = "完了"
    · simp [beq_iff_eq, h1, h2]
    · simp [beq_iff_eq, h1, h2]

theorem applyStatus_id (o : Order) (st now : String) :
    (applyStatus o st now).id = o.id := by
  rw [applyStatus]
  by_cases h1 : st = "仕掛中"
  · simp [beq_iff_eq, h1]
  · by_cases h2 : st = "完了"
    · simp [beq_iff_eq, h1, h2]
    · simp [beq_iff_eq, h1, h2]

theorem applyStatus_queued (o : Order) (st now : String) :
    (applyStatus o st now).queued_at = o.queued_at := by
  rw [applyStatus]
  by_cases h1 : st = "仕掛中"
  · simp [beq_iff_eq, h1]
  · by_cases h2 : st = "完了"
    · simp [beq_iff_eq, h1, h2]
    · simp [beq_iff_eq, h1, h2]

/-- C5: for every order located in the snapshot and every target status,
advance succeeds with no validation against the current status: it sets the
status unconditionally, stamps updated_at exactly when the target is
IN_PROGRESS and completed_at exactly when the target is DONE, and leaves
every other field of the order — and every other order — unchanged. -/
theorem advance_unconditional_update :
    ∀ q i st now j o, i ≠ "" →
      findFirst (fun o1 => o1.id == i) q.orders = some (j, o) →
      ∃ o1, update_status i st now q =
          Except.ok (o1, { q with orders := q.orders.set j o1 }) ∧
        o1.status = st ∧
        o1.updated_at = (if st = "仕掛中" then some now else o.updated_at) ∧
        o1.completed_at = (if st = "完了" then some now else o.completed_at) ∧
        o1.id = o.id ∧
        o1.queued_at = o.queued_at := by
  intro q i st now j o hi hf
  refine ⟨applyStatus o st now, ?_, applyStatus_status o st now,
    applyStatus_updated o st now, applyStatus_completed o st now,
    applyStatus_id o st now, applyStatus_queued o st now⟩
  rw [update_status_eq i st now q hi, hf]

/-- Witness for C5: a DONE order moved back to IN_PROGRESS. -/
theorem advance_unconditional_update_witness :
    ∃ o1, update_status "001" "仕掛中" "t2"
        { orders := [{ id := "001", status := "完了", queued_at := some "t0",
                       updated_at := none, completed_at := some "t1" }],
          count := 1 } =
        Except.ok (o1,
          { orders := ([{ id := "001", status := "完了", queued_at := some "t0",
                          updated_at := none, completed_at := some "t1" }] :
              List Order).set 0 o1,
            count := 1 }) ∧
      o1.status = "仕掛中" ∧
      o1.updated_at = (if "仕掛中" = "仕掛中" then some "t2" else none) ∧
      o1.completed_at = (if "仕掛中" = "完了" then some "t2" else some "t1") ∧
      o1.id = "001" ∧
      o1.queued_at = some "t0" :=
  advance_unconditional_update
    { orders := [{ id := "001", status := "完了", queued_at := some "t0",
                   updated_at := none, completed_at := some "t1" }], count := 1 }
    "001" "仕掛中" "t2" 0
    { id := "001", status := "完了", queued_at := some "t0",
      updated_at := none, completed_at := some "t1" }
    (by decide) (by rfl)

/-- C6: the removal selection policy.  With a (truthy) id: locate by id
(NotFound when absent) and, when the DONE status is required, fail with
InvalidState when the located status differs, else remove exactly the
located element.  With no truthy id: select the earliest order matching the
required status when one is given, else the first order overall, NotFound
when no candidate.  The remaining orders keep their relative order
(eraseIdx), and a successful removal is what gets persisted. -/
theorem remove_selection_policy :
    (∀ q i req, i ≠ "" → (∀ o ∈ q.orders, o.id ≠ i) →
        remove_order (some i) req q = Except.error QErr.notFound) ∧
    (∀ q i j o, i ≠ "" → findFirst (fun o1 => o1.id == i) q.orders = some (j, o) →
        o.status ≠ "完了" → remove_order (some i) true q = Except.error QErr.invalidState) ∧
    (∀ q i j o req, i ≠ "" → findFirst (fun o1 => o1.id == i) q.orders = some (j, o) →
        (req = true → o.status = "完了") →
        remove_order (some i) req q =
          Except.ok (o, { q with orders := q.orders.eraseIdx j })) ∧
    (∀ q, remove_order none true q =
      (match findFirst (fun o => o.status == "完了") q.orders with
      | none => Except.error QErr.notFound
      | some (j, o) => Except.ok (o, { q with orders := q.orders.eraseIdx j }))) ∧
    (∀ q, remove_order none false q =
      (match q.orders with
      | [] => Except.error QErr.notFound
      | o :: rest => Except.ok (o, { q with orders := rest }))) ∧
    (∀ oid req q o q1, remove_order oid req q = Except.ok (o, q1) →
        runOp (Op.remove oid req) q = q1) := by
  refine ⟨?_, ?_, ?_, remove_order_handoff_eq, remove_order_first_eq, ?_⟩
  · intro q i req hi habs
    rw [remove_order_id_eq i req q hi]
    rw [findFirst_eq_none_iff.mpr (fun o ho => beq_eq_false_iff_ne.mpr (habs o ho))]
  · intro q i j o hi hf hst
    rw [remove_order_id_eq i true q hi, hf]
    show (if (true && !(o.status == "完了")) = true then Except.error QErr.invalidState
      else Except.ok (o, { q with orders := q.orders.eraseIdx j })) =
        Except.error QErr.invalidState
    rw [beq_eq_false_iff_ne.mpr hst]
    rfl
  · intro q i j o req hi hf hok
    rw [remove_order_id_eq i req q hi, hf]
    cases req with
    | false =>
      show (if (false && !(o.status == "完了")) = true then Except.error QErr.invalidState
        else Except.ok (o, { q with orders := q.orders.eraseIdx j })) =
          Except.ok (o, { q with orders := q.orders.eraseIdx j })
      rfl
    | true =>
      show (if (true && !(o.status == "完了")) = true then Except.error QErr.invalidState
        else Except.ok (o, { q with orders := q.orders.eraseIdx j })) =
          Except.ok (o, { q with orders := q.orders.eraseIdx j })
      rw [beq_iff_eq.mpr (hok rfl)]
      rfl
  · intro oid req q o q1 h
    rw [runOp]
    show (match remove_order oid req q with
      | Except.ok (_, q2) => q2
      | Except.error _ => q) = q1
    rw [h]

/-- Witness for C6 at concrete snapshots. -/
theorem remove_selection_policy_witness :
    remove_order (some "001") true { orders := [], count := 0 } =
      Except.error QErr.notFound ∧
    remove_order (some "001") true
        { orders := [{ id := "001", status := "受付済み", queued_at := some "a",
                       updated_at := none, completed_at := none }], count := 1 } =
      Except.error QErr.invalidState ∧
    remove_order (some "001") false
        { orders := [{ id := "001", status := "受付済み", queued_at := some "a",
                       updated_at := none, completed_at := none }], count := 1 } =
      Except.ok ({ id := "001", status := "受付済み", queued_at := some "a",
                   updated_at := none, completed_at := none },
        { orders := ([{ id := "001", status := "受付済み", queued_at := some "a",
                        updated_at := none, completed_at := none }] :
            List Order).eraseIdx 0, count := 1 }) ∧
    runOp (Op.remove (some "001") false)
        { orders := [{ id := "001", status := "受付済み", queued_at := some "a",
                       updated_at := none, completed_at := none }], count := 1 } =
      { orders := [], count := 1 } :=
  ⟨remove_selection_policy.1 { orders := [], count := 0 } "001" true
      (by decide) (by simp),
   remove_selection_policy.2.1
      { orders := [{ id := "001", status := "受付済み", queued_at := some "a",
                     updated_at := none, completed_at := none }], count := 1 }
      "001" 0
      { id := "001", status := "受付済み", queued_at := some "a",
        updated_at := none, completed_at := none }
      (by decide) (by rfl) (by decide),
   remove_selection_policy.2.2.1
      { orders := [{ id := "001", status := "受付済み", queued_at := some "a",
                     updated_at := none, completed_at := none }], count := 1 }
      "001" 0
      { id := "001", status := "受付済み", queued_at := some "a",
        updated_at := none, completed_at := none }
      false (by decide) (by rfl) (by intro hc; exact absurd hc (by decide)),
   remove_selection_policy.2.2.2.2.2 (some "001") false
      { orders := [{ id := "001", status := "受付済み", queued_at := some "a",
                     updated_at := none, completed_at := none }], count := 1 }
      { id := "001", status := "受付済み", queued_at := some "a",
        updated_at := none, completed_at := none }
      { orders := [], count := 1 } (by rfl)⟩

/-- C1: register with no explicit id first increments the counter and uses
its zero-padded (width ≥ 3) decimal rendering as the new id, failing with
DuplicateId when an existing order already has that id; over any successful
run of N auto-registrations the counter grows by exactly N and the
generated ids are strictly increasing in numeric value; on the empty
snapshot the first auto id is "001". -/
theorem register_auto_id_generation :
    (∀ q now o q1, register_order none now q = Except.ok (o, q1) →
        o.id = formatI03 (q.count + 1) ∧ q1.count = q.count + 1 ∧
        parseIntChars o.id.data = some (q.count + 1) ∧ 3 ≤ o.id.data.length) ∧
    (∀ q now, (∃ o ∈ q.orders, o.id = formatI03 (q.count + 1)) →
        register_order none now q = Except.error QErr.duplicateId) ∧
    (∀ nows q q2 ids, autoRegSeq nows q = Except.ok (q2, ids) →
        q2.count = q.count + nows.length ∧
        ids.Pairwise (fun a b => ∃ x y : Int,
          parseIntChars a.data = some x ∧ parseIntChars b.data = some y ∧ x < y) ∧
        (∀ i0 ∈ ids, 3 ≤ i0.data.length)) ∧
    (∀ now, register_order none now { orders := [], count := 0 } =
        Except.ok ({ id := "001", status := "受付済み", queued_at := some now,
                     updated_at := none, completed_at := none },
          { orders := [{ id := "001", status := "受付済み", queued_at := some now,
                         updated_at := none, completed_at := none }],
            count := 1 })) := by
  refine ⟨?_, ?_, ?_, ?_⟩
  · intro q now o q1 h
    rw [register_auto_eq] at h
    by_cases hdup : q.orders.any (fun o => o.id == formatI03 (q.count + 1))
    · rw [if_pos hdup] at h
      simp at h
    · rw [if_neg hdup] at h
      simp only [Except.ok.injEq, Prod.mk.injEq] at h
      obtain ⟨ho, hq⟩ := h
      have hid : o.id = formatI03 (q.count + 1) := by rw [← ho]
      refine ⟨hid, ?_, ?_, ?_⟩
      · rw [← hq]
      · rw [hid]
        exact parseIntChars_formatI03 _
      · rw [hid]
        exact formatI03_length _
  · intro q now hex
    rw [register_auto_eq]
    obtain ⟨o, hmem, hid⟩ := hex
    have hany : (q.orders.any fun o1 => o1.id == formatI03 (q.count + 1)) = true := by
      rw [List.any_eq_true]
      exact ⟨o, hmem, beq_iff_eq.mpr hid⟩
    rw [if_pos hany]
  · intro nows q q2 ids h
    rcases autoRegSeq_ok h with ⟨hcnt, hids⟩
    refine ⟨hcnt, ?_, ?_⟩
    · rw [hids, List.pairwise_map]
      refine List.Pairwise.imp ?_ (List.pairwise_lt_range nows.length)
      intro k1 k2 hlt
      exact ⟨q.count + 1 + Int.ofNat k1, q.count + 1 + Int.ofNat k2,
        parseIntChars_formatI03 _, parseIntChars_formatI03 _,
        by simp only [Int.ofNat_eq_coe]; omega⟩
    · intro i0 hi0
      rw [hids] at hi0
      rcases List.mem_map.mp hi0 with ⟨k, _, hk⟩
      rw [← hk]
      exact formatI03_length _
  · intro now
    rfl

/-- Witness for C1: three auto-registrations on the empty snapshot. -/
theorem register_auto_id_generation_witness :
    ((3 : Int) = 0 + (["a", "b", "c"] : List String).length ∧
      (["001", "002", "003"] : List String).Pairwise (fun a b => ∃ x y : Int,
        parseIntChars a.data = some x ∧ parseIntChars b.data = some y ∧ x < y) ∧
      (∀ i0 ∈ (["001", "002", "003"] : List String), 3 ≤ i0.data.length)) ∧
    register_order none "a" { orders := [], count := 0 } =
      Except.ok ({ id := "001", status := "受付済み", queued_at := some "a",
                   updated_at := none, completed_at := none },
        { orders := [{ id := "001", status := "受付済み", queued_at := some "a",
                       updated_at := none, completed_at := none }], count := 1 }) ∧
    register_order none "x"
        { orders := [{ id := "001", status := "受付済み", queued_at := some "a",
                       updated_at := none, completed_at := none }], count := 0 } =
      Except.error QErr.duplicateId := by
  refine ⟨?_, register_auto_id_generation.2.2.2 "a", ?_⟩
  · have h := register_auto_id_generation.2.2.1 ["a", "b", "c"]
      { orders := [], count := 0 }
      { orders := [{ id := "001", status := "受付済み", queued_at := some "a",
                     updated_at := none, completed_at := none },
                   { id := "002", status := "受付済み", queued_at := some "b",
                     updated_at := none, completed_at := none },
                   { id := "003", status := "受付済み", queued_at := some "c",
                     updated_at := none, completed_at := none }], count := 3 }
      ["001", "002", "003"] (by rfl)
    exact h
  · exact register_auto_id_generation.2.1
      { orders := [{ id := "001", status := "受付済み", queued_at := some "a",
                     updated_at := none, completed_at := none }], count := 0 }
      "x"
      ⟨{ id := "001", status := "受付済み", queued_at := some "a",
         updated_at := none, completed_at := none }, by simp, by rfl⟩

/-- C4: no control operation ever decreases the persisted counter; register
with an all-digit explicit id above the current counter advances the
counter to exactly that value; and a successful auto-registration generates
an id whose numeric value strictly exceeds the counter it was loaded with —
so after register("050") the next auto id is "051", not "001". -/
theorem counter_never_decreases :
    (∀ op q, q.count ≤ (runOp op q).count) ∧
    (∀ q i now, isDigitStr i = true → q.count < (valDigits i.data : Int) →
        (∀ o ∈ q.orders, o.id ≠ i) →
        register_order (some i) now q =
          Except.ok ({ id := i, status := "受付済み", queued_at := some now,
                       updated_at := none, completed_at := none },
            { orders := q.orders ++
                [{ id := i, status := "受付済み", queued_at := some now,
                   updated_at := none, completed_at := none }],
              count := (valDigits i.data : Int) })) ∧
    (∀ q now o q1, register_order none now q = Except.ok (o, q1) →
        ∃ v : Int, parseIntChars o.id.data = some v ∧ q.count < v) ∧
    (∀ now1 now2, ∃ o2 q2,
        register_order (some "050") now1 { orders := [], count := 0 } =
          Except.ok ({ id := "050", status := "受付済み", queued_at := some now1,
                       updated_at := none, completed_at := none },
            { orders := [{ id := "050", status := "受付済み", queued_at := some now1,
                           updated_at := none, completed_at := none }], count := 50 }) ∧
        register_order none now2
            { orders := [{ id := "050", status := "受付済み", queued_at := some now1,
                           updated_at := none, completed_at := none }], count := 50 } =
          Except.ok (o2, q2) ∧ o2.id = "051") := by
  refine ⟨?_, ?_, ?_, ?_⟩
  · intro op q
    rw [runOp]
    cases op with
    | register oid now =>
      cases hop : applyOp (Op.register oid now) q with
      | error e => exact le_refl q.count
      | ok oq =>
        obtain ⟨o, q1⟩ := oq
        exact register_order_count_le
          (show register_order oid now q = Except.ok (o, q1) from hop)
    | advance i st now =>
      cases hop : applyOp (Op.advance i st now) q with
      | error e => exact le_refl q.count
      | ok oq =>
        obtain ⟨o, q1⟩ := oq
        exact le_of_eq (update_status_count
          (show update_status i st now q = Except.ok (o, q1) from hop)).symm
    | remove oid req =>
      cases hop : applyOp (Op.remove oid req) q with
      | error e => exact le_refl q.count
      | ok oq =>
        obtain ⟨o, q1⟩ := oq
        exact le_of_eq (remove_order_count
          (show remove_order oid req q = Except.ok (o, q1) from hop)).symm
  · intro q i now hdig hgt habs
    have hi : i ≠ "" := by
      intro hcon
      rw [hcon] at hdig
      exact absurd hdig (by decide)
    rw [register_explicit_eq q now i hi]
    have hany : q.orders.any (fun o => o.id == i) = false :=
      List.any_eq_false.mpr (fun o ho => by
        rw [beq_eq_false_iff_ne.mpr (habs o ho)]
        simp)
    rw [hany]
    have hmu : (maybe_update_count q i).count = (valDigits i.data : Int) := by
      rw [maybe_update_count, if_pos hdig, if_pos hgt]
    simp only [Bool.false_eq_true, if_false, hmu]
  · intro q now o q1 h
    rw [register_auto_eq] at h
    by_cases hdup : q.orders.any (fun o => o.id == formatI03 (q.count + 1))
    · rw [if_pos hdup] at h
      simp at h
    · rw [if_neg hdup] at h
      simp only [Except.ok.injEq, Prod.mk.injEq] at h
      obtain ⟨ho, _⟩ := h
      have hid : o.id = formatI03 (q.count + 1) := by rw [← ho]
      refine ⟨q.count + 1, ?_, by omega⟩
      rw [hid]
      exact parseIntChars_formatI03 _
  · intro now1 now2
    refine ⟨{ id := "051", status := "受付済み", queued_at := some now2,
              updated_at := none, completed_at := none },
      { orders := [{ id := "050", status := "受付済み", queued_at := some now1,
                     updated_at := none, completed_at := none },
                   { id := "051", status := "受付済み", queued_at := some now2,
                     updated_at := none, completed_at := none }], count := 51 },
      rfl, ?_, rfl⟩
    rw [register_auto_eq]
    norm_num
    have h51 : formatI03 (51 : Int) = "051" := rfl
    rw [h51]
    rw [if_neg (show ¬("050" : String) = "051" by decide)]

/-- Witness for C4: an advance on a missing id keeps count 5; the explicit
id "050" jump; a concrete auto-registration exceeding the counter. -/
theorem counter_never_decreases_witness :
    (({ orders := [], count := 5 } : Snapshot).count ≤
      (runOp (Op.advance "001" "完了" "t") { orders := [], count := 5 }).count) ∧
    register_order (some "050") "t" { orders := [], count := 0 } =
      Except.ok ({ id := "050", status := "受付済み", queued_at := some "t",
                   updated_at := none, completed_at := none },
        { orders := ([] : List Order) ++
            [{ id := "050", status := "受付済み", queued_at := some "t",
               updated_at := none, completed_at := none }],
          count := (valDigits "050".data : Int) }) ∧
    (∃ v : Int, parseIntChars
        ("001" : String).data = some v ∧ (0 : Int) < v) := by
  refine ⟨counter_never_decreases.1 (Op.advance "001" "完了" "t")
      { orders := [], count := 5 },
    counter_never_decreases.2.1 { orders := [], count := 0 } "050" "t"
      (by decide) (by decide) (by simp), ?_⟩
  have h := counter_never_decreases.2.2.1 { orders := [], count := 0 } "now"
    { id := "001", status := "受付済み", queued_at := some "now",
      updated_at := none, completed_at := none }
    { orders := [{ id := "001", status := "受付済み", queued_at := some "now",
                   updated_at := none, completed_at := none }], count := 1 } rfl
  exact h

theorem mem_waiting_iff (s : String) :
    waitingStatuses.contains s = true ↔ (s = "受付済み" ∨ s = "仕掛中") := by
  simp [waitingStatuses, List.contains]

theorem mem_calling_iff (s : String) :
    callingStatuses.contains s = true ↔ s = "完了" := by
  simp [callingStatuses, List.contains]

theorem keyLe_trans (a b c : Int × Nat) (h1 : keyLe a b = true)
    (h2 : keyLe b c = true) : keyLe a c = true := by
  simp only [keyLe, Bool.or_eq_true, Bool.and_eq_true, decide_eq_true_eq,
    beq_iff_eq] at h1 h2 ⊢
  rcases h1 with h1 | ⟨h1a, h1b⟩ <;> rcases h2 with h2 | ⟨h2a, h2b⟩
  · left; omega
  · left; omega
  · left; omega
  · right; exact ⟨by omega, by omega⟩

theorem keyLe_total (a b : Int × Nat) : (keyLe a b || keyLe b a) = true := by
  simp only [keyLe, Bool.or_eq_true, Bool.and_eq_true, decide_eq_true_eq,
    beq_iff_eq]
  omega

/-- C7: the display partition is total over recognized statuses and
disjoint — an indexed order lands in the waiting panel iff its stripped
status is RECEIVED or IN_PROGRESS, in the calling panel iff it is DONE, and
in neither panel for any other status value (the function is total, so an
unrecognized status never crashes it); the waiting panel is sorted by
(queued_at key, insertion index) and the calling panel by
(completed_at-falling-back-to-updated_at key, insertion index), for every
valuation of the timestamp parser. -/
theorem display_partition_and_sort :
    ∀ (pIso : Option String → Int) (orders : List Order),
      (∀ io, io ∈ (load_orders pIso orders).fst ↔
          (io ∈ orders.enum ∧
            (pyStrip io.snd.status = "受付済み" ∨ pyStrip io.snd.status = "仕掛中"))) ∧
      (∀ io, io ∈ (load_orders pIso orders).snd ↔
          (io ∈ orders.enum ∧ pyStrip io.snd.status = "完了")) ∧
      (∀ io, pyStrip io.snd.status ≠ "受付済み" → pyStrip io.snd.status ≠ "仕掛中" →
          pyStrip io.snd.status ≠ "完了" →
          io ∉ (load_orders pIso orders).fst ∧ io ∉ (load_orders pIso orders).snd) ∧
      (∀ io, ¬(io ∈ (load_orders pIso orders).fst ∧ io ∈ (load_orders pIso orders).snd)) ∧
      List.Pairwise (fun a b => keyLe (waitKey pIso a) (waitKey pIso b) = true)
        (load_orders pIso orders).fst ∧
      List.Pairwise (fun a b => keyLe (callKey pIso a) (callKey pIso b) = true)
        (load_orders pIso orders).snd := by
  intro pIso orders
  have hwdef : (load_orders pIso orders).fst =
      (orders.enum.filter
        (fun io => waitingStatuses.contains (pyStrip io.snd.status))).mergeSort
        (fun a b => keyLe (waitKey pIso a) (waitKey pIso b)) := rfl
  have hcdef : (load_orders pIso orders).snd =
      (orders.enum.filter
        (fun io => callingStatuses.contains (pyStrip io.snd.status))).mergeSort
        (fun a b => keyLe (callKey pIso a) (callKey pIso b)) := rfl
  have h1 : ∀ io, io ∈ (load_orders pIso orders).fst ↔
      (io ∈ orders.enum ∧
        (pyStrip io.snd.status = "受付済み" ∨ pyStrip io.snd.status = "仕掛中")) := by
    intro io
    rw [hwdef, List.mem_mergeSort, List.mem_filter, mem_waiting_iff]
  have h2 : ∀ io, io ∈ (load_orders pIso orders).snd ↔
      (io ∈ orders.enum ∧ pyStrip io.snd.status = "完了") := by
    intro io
    rw [hcdef, List.mem_mergeSort, List.mem_filter, mem_calling_iff]
  refine ⟨h1, h2, ?_, ?_, ?_, ?_⟩
  · intro io hn1 hn2 hn3
    constructor
    · intro hcon
      rcases (h1 io).mp hcon with ⟨_, h | h⟩
      · exact hn1 h
      · exact hn2 h
    · intro hcon
      exact hn3 ((h2 io).mp hcon).2
  · intro io hcon
    obtain ⟨hwm, hcm⟩ := hcon
    have hst := ((h2 io).mp hcm).2
    rcases ((h1 io).mp hwm).2 with h | h
    · rw [h] at hst
      exact absurd hst (by decide)
    · rw [h] at hst
      exact absurd hst (by decide)
  · rw [hwdef]
    apply List.sorted_mergeSort
    · intro a b c hab hbc
      exact keyLe_trans (waitKey pIso a) (waitKey pIso b) (waitKey pIso c) hab hbc
    · intro a b
      exact keyLe_total (waitKey pIso a) (waitKey pIso b)
  · rw [hcdef]
    apply List.sorted_mergeSort
    · intro a b c hab hbc
      exact keyLe_trans (callKey pIso a) (callKey pIso b) (callKey pIso c) hab hbc
    · intro a b
      exact keyLe_total (callKey pIso a) (callKey pIso b)

/-- Witness for C7: an unrecognized status is excluded from both panels. -/
theorem display_partition_and_sort_witness :
    (1, { id := "002", status := "zzz", queued_at := some "b",
          updated_at := none, completed_at := none }) ∉
      (load_orders (fun _ => 0)
        [{ id := "001", status := "完了", queued_at := some "a",
           updated_at := none, completed_at := some "c" },
         { id := "002", status := "zzz", queued_at := some "b",
           updated_at := none, completed_at := none }]).fst ∧
    (1, { id := "002", status := "zzz", queued_at := some "b",
          updated_at := none, completed_at := none }) ∉
      (load_orders (fun _ => 0)
        [{ id := "001", status := "完了", queued_at := some "a",
           updated_at := none, completed_at := some "c" },
         { id := "002", status := "zzz", queued_at := some "b",
           updated_at := none, completed_at := none }]).snd :=
  (display_partition_and_sort (fun _ => 0)
    [{ id := "001", status := "完了", queued_at := some "a",
       updated_at := none, completed_at := some "c" },
     { id := "002", status := "zzz", queued_at := some "b",
       updated_at := none, completed_at := none }]).2.2.1
    (1, { id := "002", status := "zzz", queued_at := some "b",
          updated_at := none, completed_at := none })
    (by decide) (by decide) (by decide)

/-- Witness for C9 at concrete states. -/
theorem poll_watermark_discipline_witness :
    poll_queue { last_mtime := some 7, waiting := [], calling := [] }
        (FileObs.present 7 (Except.error ())) =
      { state := { last_mtime := some 7, waiting := [], calling := [] },
        reloaded := false, rescheduled := true } ∧
    poll_queue { last_mtime := none, waiting := [], calling := [] }
        (FileObs.present 7 (Except.ok ([], []))) =
      { state := { last_mtime := some 7, waiting := [], calling := [] },
        reloaded := true, rescheduled := true } ∧
    poll_queue { last_mtime := none, waiting := [], calling := [] }
        (FileObs.present 7 (Except.error ())) =
      { state := { last_mtime := none, waiting := [], calling := [] },
        reloaded := true, rescheduled := true } :=
  ⟨poll_watermark_discipline.1 _ 7 _ rfl,
   poll_watermark_discipline.2.1 _ 7 [] [] (by simp),
   poll_watermark_discipline.2.2.1 _ 7 () (by simp)⟩

end RQS
